import Mathlib

/-!
# Verification of the Excel-data chatbot query pipeline

Shallow embedding of `src/streamlit_app.py`.  Text is modelled as `List Char`
(`String.data` of Lean string literals).  The Python string operations used by
the source (`str.split`, `str.strip`, `str.startswith`, `in`, `str.splitlines`,
`"\n".join`) are embedded as executable functions below, following Python's
semantics (left-to-right, non-overlapping occurrences for `split`).

The Python interpreter invocation `exec(code, globals, locals)` is the opaque
boundary of the program: it is abstracted as a parameter of type `SnippetSem`
(given the code text, the globals dictionary, and the locals dictionary, it
either produces the final locals dictionary or fails with a cause string).
Everything `execute_code` itself does around that call is embedded faithfully.
-/

/-- The backquote character (`` ` ``), written via its code point. -/
def backquote : Char := Char.ofNat 96

/-- Python `s.removeprefix`-style matcher: if `p` is a prefix of `s`, return
the remainder, else `none`.  Basis for `startsWithL` and `pySplit`. -/
def dropPre : List Char → List Char → Option (List Char)
  | [], s => some s
  | _ :: _, [] => none
  | a :: as, b :: bs => if a = b then dropPre as bs else none

/-- Python `s.startswith(p)` on character lists. -/
def startsWithL (p s : List Char) : Bool := (dropPre p s).isSome

/-- Python `p in s` (substring containment) on character lists. -/
def containsSub (needle : List Char) : List Char → Bool
  | [] => needle.isEmpty
  | c :: rest => startsWithL needle (c :: rest) || containsSub needle rest

/-- Worker for `pySplit`.  Scans left to right; `skip > 0` means we are still
consuming the characters of a separator occurrence that was already matched. -/
def pySplitGo (sep : List Char) : List Char → Nat → List (List Char)
  | [], _ => [[]]
  | _ :: rest, k + 1 => pySplitGo sep rest k
  | c :: rest, 0 =>
    if startsWithL sep (c :: rest) then
      [] :: pySplitGo sep rest (sep.length - 1)
    else
      (pySplitGo sep rest 0).modifyHead (fun p => c :: p)

/-- Python `s.split(sep)` for a non-empty separator: split at each
non-overlapping occurrence of `sep`, scanning left to right.  (Python raises
`ValueError` on an empty separator; the source only ever splits on the
non-empty literals three-backquotes and three-backquotes-python, so the
`sep = []` branch is just a total-function guard.) -/
def pySplit (sep s : List Char) : List (List Char) :=
  match sep with
  | [] => [s]
  | _ :: _ => pySplitGo sep s 0

/-- Python `s.strip()`: remove leading and trailing whitespace. -/
def trimChars (s : List Char) : List Char :=
  ((s.dropWhile Char.isWhitespace).reverse.dropWhile Char.isWhitespace).reverse

/-- Python `sep.join(parts)`. -/
def pyJoin (sep : List Char) : List (List Char) → List Char
  | [] => []
  | [l] => l
  | l :: l2 :: rest => l ++ sep ++ pyJoin sep (l2 :: rest)

/-- Python `s.splitlines()` restricted to the newline character (the snippets
handled by the source use plain newline line endings): split on each newline,
except that a trailing newline does not produce a final empty line, and the
empty text has no lines. -/
def pySplitlines (s : List Char) : List (List Char) :=
  if s.isEmpty then []
  else
    let p := pySplit [Char.ofNat 10] s
    if p.getLast? = some [] then p.dropLast else p

/-!
## Data model

`DataFrame` records the two dimensions the program inspects (`len(df)` and
`len(df.columns)`); `PyVal` is the closed set of runtime value kinds that
`format_result` distinguishes by `isinstance` tests.  Floating-point values
and chart figures are opaque tags: no claim depends on their contents.
-/

/-- The tabular dataset: `nrows` is the Python `len(df)`, `ncols` is
`len(df.columns)`. -/
structure DataFrame where
  nrows : Nat
  ncols : Nat
deriving DecidableEq

/-- Runtime values a snippet can bind to `result`, distinguished exactly as
the `isinstance` chain of `format_result` distinguishes them.  `none` is the
Python `None` (also what `dict.get` yields for an unbound `result`). -/
inductive PyVal where
  | none
  | dataframe (d : DataFrame)
  | figure (tag : Nat)
  | str (s : List Char)
  | int (n : Int)
  | float (tag : Nat)
  | list (xs : List PyVal)
  | dict (entries : List (PyVal × PyVal))
  | module (name : List Char)
  | other (tag : Nat)

/-- A variable dictionary, as passed to and returned by `exec`. -/
def Env : Type := List (List Char × PyVal)

/-- Semantics of the Python `exec(code, globals, locals)` call — the opaque
interpreter boundary.  Given the snippet text, the globals dictionary and the
locals dictionary, it either yields the final locals dictionary or fails with
a human-readable cause (the `str(e)` of the raised exception).  It is a
parameter of the embedding: `execute_code` must behave as specified for every
such semantics. -/
def SnippetSem : Type :=
  List Char → Env → Env → Except (List Char) Env

/-- The globals dictionary of the `exec` call in `execute_code`:
`{"__builtins__": {}}`. -/
def execGlobals : Env := [("__builtins__".data, PyVal.dict [])]

/-- The locals dictionary of the `exec` call in `execute_code`:
`{'df': df, 'pd': pd, 'px': px}`. -/
def initLocals (df : DataFrame) : Env :=
  [("df".data, PyVal.dataframe df),
   ("pd".data, PyVal.module ("pandas".data)),
   ("px".data, PyVal.module ("plotly.express".data))]

/-- `execute_code(code, df)` from the source: run the snippet under the
restricted globals/locals; on success read `local_vars.get('result')`
(Python `None` when unbound); on any exception display
`"Code execution failed: ..."` via `st.error` (the second component) and
return `None`.  The function itself never fails. -/
def execute_code (run : SnippetSem) (code : List Char) (df : DataFrame) :
    PyVal × Option (List Char) :=
  match run code execGlobals (initLocals df) with
  | .ok env => ((List.lookup ("result".data) env).getD PyVal.none, Option.none)
  | .error e => (PyVal.none, some ("Code execution failed: ".data ++ e))

/-- The visible display action `format_result` performs via Streamlit calls
(plus, for a table, the CSV download offer; for scalar-like values the
rendered text shown by `st.write`). -/
inductive DisplayAction where
  | table (d : DataFrame)
  | chart (tag : Nat)
  | text (rendered : List Char)
  | warning
  | noDisplay
deriving DecidableEq

/-- Python `str(result)` for the scalar-like branch.  Its exact rendering is
irrelevant to every property proved below; only `str` values and integers are
rendered concretely. -/
def pyStrOf : PyVal → List Char
  | .str s => s
  | .int n => (toString n).data
  | _ => "<value>".data

/-- Is the value scalar-like, i.e. does it satisfy the source's
`isinstance(result, (str, int, float, list, dict))` test? -/
def isScalarLike : PyVal → Bool
  | .str _ => true
  | .int _ => true
  | .float _ => true
  | .list _ => true
  | .dict _ => true
  | _ => false

/-- `isinstance(result, pd.DataFrame)`. -/
def isTable : PyVal → Bool
  | .dataframe _ => true
  | _ => false

/-- `isinstance(result, go.Figure)`. -/
def isChart : PyVal → Bool
  | .figure _ => true
  | _ => false

/-- `format_result(result)` from the source: dispatch on the value's kind in
source order (`None`, DataFrame, Figure, scalar-like, anything else) and
produce the display action together with the returned acknowledgment text. -/
def format_result (result : PyVal) : DisplayAction × List Char :=
  match result with
  | .none => (DisplayAction.noDisplay, "No result to display.".data)
  | .dataframe d => (DisplayAction.table d, "Here is the tabular data you requested.".data)
  | .figure tag => (DisplayAction.chart tag, "Here is the chart you requested.".data)
  | v =>
    if isScalarLike v then (DisplayAction.text (pyStrOf v), pyStrOf v)
    else (DisplayAction.warning, "Assistant returned an unknown format.".data)

/-!
## Response classification, extraction, and the per-query pipeline
-/

/-- Line 193/216 of the source: `response and "result =" in response and
"```python" in response` (Python string truthiness is non-emptiness). -/
def classifiesAsSnippet (response : List Char) : Bool :=
  !response.isEmpty
    && containsSub ("result =".data) response
    && containsSub ("```python".data) response

/-- Line 195/218: `response.split("```python")[-1].split("```")[0].strip()` —
take the text after the last occurrence of the opening python fence, cut it at
the next fence, and strip surrounding whitespace. -/
def extract_code (response : List Char) : List Char :=
  trimChars
    (List.headD (pySplit ("```".data) (List.getLastD (pySplit ("```python".data) response) [])) [])

/-- Line 196/219: keep only the lines whose stripped text does not start with
`"import"`, re-joined with newlines. -/
def stripImportLines (raw : List Char) : List Char :=
  pyJoin [Char.ofNat 10]
    ((pySplitlines raw).filter (fun line => !(startsWithL ("import".data) (trimChars line))))

/-- One conversation turn (`{"sender": ..., "text": ...}`). -/
inductive Sender where
  | user
  | assistant
deriving DecidableEq

/-- An entry of `st.session_state.chat_history`. -/
structure Turn where
  sender : Sender
  text : List Char
deriving DecidableEq

/-- The per-session state the pipeline touches (`st.session_state`). -/
structure Session where
  df : Option DataFrame
  chat_history : List Turn
  last_query : Option (List Char)
  last_response : Option (List Char)
  example_query : Option (List Char)

/-- Lines 185–203 (identically 208–226) of the source, for one submitted
query: append the user turn, record the query and the completion text, then
either run the snippet path (extract, strip imports, execute, format, log the
acknowledgment) or log the plain answer (with the fixed fallback for an empty
completion).  The completion `response` is the text returned by the opaque
`ask_gemini` call. -/
def processQuery (run : SnippetSem) (df : DataFrame) (s : Session)
    (q response : List Char) : Session :=
  let s1 : Session := { s with chat_history := s.chat_history ++ [⟨Sender.user, q⟩] }
  let s2 : Session := { s1 with last_query := some q, last_response := some response }
  if classifiesAsSnippet response then
    let code := stripImportLines (extract_code response)
    let feedback := (format_result (execute_code run code df).1).2
    { s2 with chat_history := s2.chat_history ++ [⟨Sender.assistant, feedback⟩] }
  else
    { s2 with chat_history := s2.chat_history ++
        [⟨Sender.assistant, if response.isEmpty then "No answer returned.".data else response⟩] }

/-- The pipeline reads the dataset from the store
(`st.session_state.df`, lines 188 and 197); it only runs in the branch of
`main` where a dataset is loaded. -/
def processQueryS (run : SnippetSem) (s : Session) (q response : List Char) : Session :=
  match s.df with
  | Option.none => s
  | some df => processQuery run df s q response

/-- Line 184: `if send and query:` guarding the form-submission path. -/
def handleSend (run : SnippetSem) (s : Session) (send : Bool)
    (q response : List Char) : Session :=
  if send = true ∧ q ≠ [] then processQueryS run s q response else s

/-- Lines 205–208: the example-button path — take the pending example query,
clear it, then run the same pipeline. -/
def handleExample (run : SnippetSem) (s : Session) (response : List Char) : Session :=
  match s.example_query with
  | Option.none => s
  | some q => processQueryS run { s with example_query := Option.none } q response

/-!
## Dataset store
-/

/-- Line 10. -/
def MAX_ROWS : Nat := 500

/-- Line 11. -/
def MAX_COLS : Nat := 20

/-- `process_excel_file` (lines 32–44).  `read` is the outcome of the opaque
`pd.read_excel` call (which may raise).  Returns the accepted dataset (or
`none` on rejection) together with the `st.error` messages displayed. -/
def process_excel_file (read : Except (List Char) DataFrame) :
    Option DataFrame × List (List Char) :=
  match read with
  | .error e => (Option.none, [("Error processing Excel file: ".data ++ e)])
  | .ok df =>
    if df.nrows > MAX_ROWS then
      (Option.none, [("Too many rows. Max allowed: ".data ++ (toString MAX_ROWS).data)])
    else if df.ncols > MAX_COLS then
      (Option.none, [("Too many columns. Max allowed: ".data ++ (toString MAX_COLS).data)])
    else (some df, [])

/-- Lines 125–133: the upload branch only runs while no dataset is stored, and
the store is assigned only when `process_excel_file` accepted the file. -/
def uploadFileStep (s : Session) (read : Except (List Char) DataFrame) : Session :=
  match s.df with
  | some _ => s
  | Option.none =>
    match (process_excel_file read).1 with
    | some d => { s with df := some d }
    | Option.none => s

/-- Does the conversation log alternate user/assistant turns, starting with a
user turn?  (The shape claimed invariant for `chat_history`.) -/
def altLog : List Turn → Bool
  | [] => true
  | ⟨Sender.user, _⟩ :: ⟨Sender.assistant, _⟩ :: rest => altLog rest
  | _ => false

/-!
## Helper lemmas about the per-query pipeline
-/

/-- `processQuery` never touches the stored dataset (no assignment to
`st.session_state.df` occurs between lines 184 and 203). -/
theorem processQuery_df_eq (run : SnippetSem) (df : DataFrame) (s : Session)
    (q response : List Char) : (processQuery run df s q response).df = s.df := by
  unfold processQuery
  by_cases hc : classifiesAsSnippet response <;> simp [hc]

/-- Neither does `processQueryS`. -/
theorem processQueryS_df_eq (run : SnippetSem) (s : Session) (q response : List Char) :
    (processQueryS run s q response).df = s.df := by
  unfold processQueryS
  cases h : s.df with
  | none => exact h
  | some df => rw [processQuery_df_eq, h]

/-- On the snippet path, the chat log gains the user turn followed by the
formatted execution feedback. -/
theorem processQueryS_chat_snippet (run : SnippetSem) (s : Session) (df : DataFrame)
    (q response : List Char) (hdf : s.df = some df)
    (hc : classifiesAsSnippet response = true) :
    (processQueryS run s q response).chat_history
      = s.chat_history ++ [⟨Sender.user, q⟩,
          ⟨Sender.assistant,
            (format_result (execute_code run (stripImportLines (extract_code response)) df).1).2⟩] := by
  simp [processQueryS, hdf, processQuery, hc]

/-- On the plain-answer path, the chat log gains the user turn followed by the
completion text (with the fixed fallback for an empty completion). -/
theorem processQueryS_chat_plain (run : SnippetSem) (s : Session) (df : DataFrame)
    (q response : List Char) (hdf : s.df = some df)
    (hc : classifiesAsSnippet response = false) :
    (processQueryS run s q response).chat_history
      = s.chat_history ++ [⟨Sender.user, q⟩,
          ⟨Sender.assistant, if response.isEmpty then "No answer returned.".data else response⟩] := by
  simp [processQueryS, hdf, processQuery, hc]

/-- Whatever the completion looks like, a processed query appends exactly the
user turn and one assistant turn. -/
theorem processQueryS_chat_shape (run : SnippetSem) (s : Session) (df : DataFrame)
    (q response : List Char) (hdf : s.df = some df) :
    ∃ t, (processQueryS run s q response).chat_history
      = s.chat_history ++ [⟨Sender.user, q⟩, ⟨Sender.assistant, t⟩] := by
  by_cases hc : classifiesAsSnippet response
  · exact ⟨_, processQueryS_chat_snippet run s df q response hdf hc⟩
  · exact ⟨_, processQueryS_chat_plain run s df q response hdf (eq_false_of_ne_true hc)⟩

/-!
## C1 — the executor never lets a failure escape
-/

/-- C1: for every snippet text and every behaviour of the underlying `exec`
call, `execute_code` returns normally: either the `exec` call succeeded and
the value bound to `result` (Python `None` when unbound) is returned with no
error display, or the failure is caught, displayed via `st.error`, and `None`
is returned.  No fault propagates past `execute_code`. -/
theorem c1_execute_code_never_raises (run : SnippetSem) (code : List Char) (df : DataFrame) :
    (∃ env, run code execGlobals (initLocals df) = Except.ok env ∧
        execute_code run code df
          = ((List.lookup ("result".data) env).getD PyVal.none, Option.none))
    ∨ (∃ e, run code execGlobals (initLocals df) = Except.error e ∧
        execute_code run code df
          = (PyVal.none, some ("Code execution failed: ".data ++ e))) := by
  cases h : run code execGlobals (initLocals df) with
  | ok env => exact Or.inl ⟨env, rfl, by simp [execute_code, h]⟩
  | error e => exact Or.inr ⟨e, rfl, by simp [execute_code, h]⟩

/-!
## C2 — the evaluation context binds exactly df, pd, px
-/

/-- C2: the locals dictionary of the `exec` call binds exactly the three names
`df`, `pd`, `px`; the globals dictionary maps `__builtins__` to the empty
dictionary and nothing else; and after a successful run the executor reads
exactly the binding of `result` (and nothing else) from the final locals. -/
theorem c2_sandbox_bindings (run : SnippetSem) (code : List Char) (df : DataFrame)
    (env : Env) (h : run code execGlobals (initLocals df) = Except.ok env) :
    (initLocals df).map Prod.fst = ["df".data, "pd".data, "px".data]
    ∧ execGlobals = [("__builtins__".data, PyVal.dict [])]
    ∧ (execute_code run code df).1 = (List.lookup ("result".data) env).getD PyVal.none := by
  refine ⟨rfl, rfl, ?_⟩
  simp [execute_code, h]

/-- Witness for C2 at a concrete successful run that binds `result` to 7. -/
theorem c2_sandbox_bindings_witness :
    (initLocals ⟨2, 2⟩).map Prod.fst = ["df".data, "pd".data, "px".data]
    ∧ execGlobals = [("__builtins__".data, PyVal.dict [])]
    ∧ (execute_code
          (fun _ _ locals => Except.ok (("result".data, PyVal.int 7) :: locals))
          ("result = 7".data) ⟨2, 2⟩).1
        = (List.lookup ("result".data) (("result".data, PyVal.int 7) :: initLocals ⟨2, 2⟩)).getD
            PyVal.none :=
  c2_sandbox_bindings
    (fun _ _ locals => Except.ok (("result".data, PyVal.int 7) :: locals))
    ("result = 7".data) ⟨2, 2⟩ (("result".data, PyVal.int 7) :: initLocals ⟨2, 2⟩) rfl

/-!
## C5 — rendering of unrecognized result shapes
-/

/-- C5 counterexample: in the `Absent` case (`result` unbound, i.e. the Python
`None`), `format_result` performs no display call and returns the fixed
`"No result to display."` text — not the show-a-warning action and not the
`"unknown format"` acknowledgment the claim requires for this case. -/
theorem c5_counterexample :
    format_result PyVal.none = (DisplayAction.noDisplay, "No result to display.".data)
    ∧ (format_result PyVal.none).1 ≠ DisplayAction.warning
    ∧ (format_result PyVal.none).2 ≠ "Assistant returned an unknown format.".data := by
  decide

/-- C5 amended: for every execution result that is not a table, not a chart,
not scalar-like, and not the `Absent`/`None` case, the renderer produces the
show-a-warning display action and the fixed "unknown format" acknowledgment.
(The `Absent`/`None` case instead yields no display action and the fixed
"No result to display." text, per the counterexample.) -/
theorem c5_amended_unknown_shape_warns (v : PyVal)
    (h1 : isTable v = false) (h2 : isChart v = false)
    (h3 : isScalarLike v = false) (h4 : v ≠ PyVal.none) :
    format_result v = (DisplayAction.warning, "Assistant returned an unknown format.".data) := by
  cases v <;> simp_all [isTable, isChart, isScalarLike, format_result]

/-- Witness for the amended C5 at a concrete unrecognized value. -/
theorem c5_amended_witness :
    isTable (PyVal.other 0) = false ∧ isChart (PyVal.other 0) = false
    ∧ isScalarLike (PyVal.other 0) = false ∧ PyVal.other 0 ≠ PyVal.none
    ∧ format_result (PyVal.other 0)
        = (DisplayAction.warning, "Assistant returned an unknown format.".data) :=
  ⟨rfl, rfl, rfl, fun h => PyVal.noConfusion h,
    c5_amended_unknown_shape_warns (PyVal.other 0) rfl rfl rfl (fun h => PyVal.noConfusion h)⟩

/-!
## C8 — oversized datasets are rejected and the store is untouched
-/

/-- C8: if the ingested dataset has more than `MAX_ROWS` rows or more than
`MAX_COLS` columns, `process_excel_file` rejects it, the displayed error names
the violated bound together with its limit, and the upload step leaves the
store's prior content (an earlier dataset or none) unchanged. -/
theorem c8_size_exceeded_rejected (s : Session) (read : Except (List Char) DataFrame)
    (df : DataFrame) (hread : read = Except.ok df)
    (hviol : df.nrows > MAX_ROWS ∨ df.ncols > MAX_COLS) :
    (process_excel_file read).1 = Option.none
    ∧ (df.nrows > MAX_ROWS →
        (process_excel_file read).2
          = [("Too many rows. Max allowed: ".data ++ (toString MAX_ROWS).data)])
    ∧ (df.nrows ≤ MAX_ROWS → df.ncols > MAX_COLS →
        (process_excel_file read).2
          = [("Too many columns. Max allowed: ".data ++ (toString MAX_COLS).data)])
    ∧ (uploadFileStep s read).df = s.df := by
  subst hread
  have h1 : (process_excel_file (Except.ok df)).1 = Option.none := by
    rcases hviol with hv | hv
    · simp [process_excel_file, hv]
    · by_cases hr : df.nrows > MAX_ROWS
      · simp [process_excel_file, hr]
      · simp [process_excel_file, hr, hv]
  refine ⟨h1, ?_, ?_, ?_⟩
  · intro hr
    simp [process_excel_file, hr]
  · intro hr hc
    have hnr : ¬ df.nrows > MAX_ROWS := by omega
    simp [process_excel_file, hnr, hc]
  · cases hd : s.df with
    | some d => simp [uploadFileStep, hd]
    | none => simp [uploadFileStep, hd, h1]

/-- Witness for C8: a 501-row dataset is rejected with the row-bound error and
an empty store stays empty. -/
theorem c8_witness :
    (process_excel_file (Except.ok ⟨501, 3⟩)).1 = Option.none
    ∧ ((501 : Nat) > MAX_ROWS →
        (process_excel_file (Except.ok (⟨501, 3⟩ : DataFrame))).2
          = [("Too many rows. Max allowed: ".data ++ (toString MAX_ROWS).data)])
    ∧ ((501 : Nat) ≤ MAX_ROWS → (3 : Nat) > MAX_COLS →
        (process_excel_file (Except.ok (⟨501, 3⟩ : DataFrame))).2
          = [("Too many columns. Max allowed: ".data ++ (toString MAX_COLS).data)])
    ∧ (uploadFileStep ⟨Option.none, [], Option.none, Option.none, Option.none⟩
        (Except.ok ⟨501, 3⟩)).df
      = (⟨Option.none, [], Option.none, Option.none, Option.none⟩ : Session).df :=
  c8_size_exceeded_rejected ⟨Option.none, [], Option.none, Option.none, Option.none⟩
    (Except.ok ⟨501, 3⟩) ⟨501, 3⟩ rfl (Or.inl (by decide))

/-!
## C7 — no hidden mutation of the stored dataset; repeated runs agree
-/

/-- C7: processing a query never rebinds the stored dataset, so running the
same query (with the same completion, hence the same extracted snippet)
a second time sees the same dataset state and logs the identical assistant
feedback.  (The `exec` boundary is modelled as a function of the snippet text
and the variable dictionaries, so executing the same snippet against the same
dataset is deterministic.) -/
theorem c7_no_store_mutation_idempotent (run : SnippetSem) (s : Session)
    (df : DataFrame) (q response : List Char) (hdf : s.df = some df) :
    (processQueryS run s q response).df = s.df
    ∧ ∃ t, (processQueryS run s q response).chat_history
        = s.chat_history ++ [⟨Sender.user, q⟩, ⟨Sender.assistant, t⟩]
      ∧ (processQueryS run (processQueryS run s q response) q response).chat_history
        = (processQueryS run s q response).chat_history
            ++ [⟨Sender.user, q⟩, ⟨Sender.assistant, t⟩] := by
  have hdf1 : (processQueryS run s q response).df = some df := by
    rw [processQueryS_df_eq]; exact hdf
  refine ⟨processQueryS_df_eq run s q response, ?_⟩
  by_cases hc : classifiesAsSnippet response
  · exact ⟨_, processQueryS_chat_snippet run s df q response hdf hc,
      processQueryS_chat_snippet run _ df q response hdf1 hc⟩
  · have hc' := eq_false_of_ne_true hc
    exact ⟨_, processQueryS_chat_plain run s df q response hdf hc',
      processQueryS_chat_plain run _ df q response hdf1 hc'⟩

/-- Witness for C7 at a concrete snippet run. -/
theorem c7_witness :
    ((⟨some ⟨3, 2⟩, [], Option.none, Option.none, Option.none⟩ : Session).df = some ⟨3, 2⟩)
    ∧ ((processQueryS (fun _ _ locals => Except.ok (("result".data, PyVal.int 4) :: locals))
          ⟨some ⟨3, 2⟩, [], Option.none, Option.none, Option.none⟩
          ("sum?".data) ("```python\nresult = 4\n```".data)).df
        = (⟨some ⟨3, 2⟩, [], Option.none, Option.none, Option.none⟩ : Session).df
      ∧ ∃ t, (processQueryS (fun _ _ locals => Except.ok (("result".data, PyVal.int 4) :: locals))
            ⟨some ⟨3, 2⟩, [], Option.none, Option.none, Option.none⟩
            ("sum?".data) ("```python\nresult = 4\n```".data)).chat_history
          = (⟨some ⟨3, 2⟩, [], Option.none, Option.none, Option.none⟩ : Session).chat_history
              ++ [⟨Sender.user, "sum?".data⟩, ⟨Sender.assistant, t⟩]
        ∧ (processQueryS (fun _ _ locals => Except.ok (("result".data, PyVal.int 4) :: locals))
              (processQueryS (fun _ _ locals => Except.ok (("result".data, PyVal.int 4) :: locals))
                ⟨some ⟨3, 2⟩, [], Option.none, Option.none, Option.none⟩
                ("sum?".data) ("```python\nresult = 4\n```".data))
              ("sum?".data) ("```python\nresult = 4\n```".data)).chat_history
          = (processQueryS (fun _ _ locals => Except.ok (("result".data, PyVal.int 4) :: locals))
                ⟨some ⟨3, 2⟩, [], Option.none, Option.none, Option.none⟩
                ("sum?".data) ("```python\nresult = 4\n```".data)).chat_history
              ++ [⟨Sender.user, "sum?".data⟩, ⟨Sender.assistant, t⟩]) :=
  ⟨rfl, c7_no_store_mutation_idempotent
    (fun _ _ locals => Except.ok (("result".data, PyVal.int 4) :: locals))
    ⟨some ⟨3, 2⟩, [], Option.none, Option.none, Option.none⟩ ⟨3, 2⟩
    ("sum?".data) ("```python\nresult = 4\n```".data) rfl⟩

/-!
## C9 — classification keys on the exact literal tokens
-/

/-- C9: a completion that nowhere contains the literal eight-character token
`result =` (one space before the equals sign) is never classified as a
snippet — even if it contains a python fenced block assigning `result=` with
no space — so the pipeline takes the plain-answer path: it logs the
completion text verbatim (or the fallback) and the outcome is independent of
the snippet-execution semantics, i.e. the code is never executed. -/
theorem c9_spacing_token_required (run run' : SnippetSem) (s : Session) (df : DataFrame)
    (q response : List Char) (hdf : s.df = some df)
    (h : containsSub ("result =".data) response = false) :
    classifiesAsSnippet response = false
    ∧ (processQueryS run s q response).chat_history
        = s.chat_history ++ [⟨Sender.user, q⟩,
            ⟨Sender.assistant, if response.isEmpty then "No answer returned.".data else response⟩]
    ∧ processQueryS run s q response = processQueryS run' s q response := by
  have hc : classifiesAsSnippet response = false := by
    simp [classifiesAsSnippet, h]
  refine ⟨hc, processQueryS_chat_plain run s df q response hdf hc, ?_⟩
  simp [processQueryS, hdf, processQuery, hc]

/-- Witness for C9: the completion carries a python fenced block assigning
`result=df.mean()` (no space), and is handled as a plain answer. -/
theorem c9_witness :
    containsSub ("result =".data) ("```python\nresult=df.mean()\n```".data) = false
    ∧ classifiesAsSnippet ("```python\nresult=df.mean()\n```".data) = false
    ∧ (processQueryS (fun _ _ locals => Except.ok locals)
          ⟨some ⟨1, 1⟩, [], Option.none, Option.none, Option.none⟩
          ("avg?".data) ("```python\nresult=df.mean()\n```".data)).chat_history
        = (⟨some ⟨1, 1⟩, [], Option.none, Option.none, Option.none⟩ : Session).chat_history
            ++ [⟨Sender.user, "avg?".data⟩,
                ⟨Sender.assistant,
                  if ("```python\nresult=df.mean()\n```".data).isEmpty
                  then "No answer returned.".data
                  else "```python\nresult=df.mean()\n```".data⟩]
    ∧ processQueryS (fun _ _ locals => Except.ok locals)
          ⟨some ⟨1, 1⟩, [], Option.none, Option.none, Option.none⟩
          ("avg?".data) ("```python\nresult=df.mean()\n```".data)
        = processQueryS (fun _ _ _ => Except.error ("unused".data))
          ⟨some ⟨1, 1⟩, [], Option.none, Option.none, Option.none⟩
          ("avg?".data) ("```python\nresult=df.mean()\n```".data) :=
  ⟨by decide,
    c9_spacing_token_required (fun _ _ locals => Except.ok locals)
      (fun _ _ _ => Except.error ("unused".data))
      ⟨some ⟨1, 1⟩, [], Option.none, Option.none, Option.none⟩ ⟨1, 1⟩
      ("avg?".data) ("```python\nresult=df.mean()\n```".data) rfl (by decide)⟩

/-!
## C6 — failed executions and the position of the user turn
-/

/-- C6 counterexample: the snippet execution fails with cause `boom`, yet the
assistant message appended to the conversation log is the fixed
`"No result to display."` text, which does not contain (hence does not wrap)
the failure cause — the cause only reaches the transient `st.error` display
inside `execute_code`. -/
theorem c6_counterexample :
    (processQueryS (fun _ _ _ => Except.error ("boom".data))
        ⟨some ⟨3, 2⟩, [], Option.none, Option.none, Option.none⟩
        ("q".data) ("```python\nresult = 1/0\n```".data)).chat_history
      = [⟨Sender.user, "q".data⟩, ⟨Sender.assistant, "No result to display.".data⟩]
    ∧ containsSub ("boom".data) ("No result to display.".data) = false := by
  decide

/-- C6 amended: when snippet execution fails, the pipeline still appends an
assistant turn — the fixed `"No result to display."` text (the failure cause
is surfaced only through the transient error display, not wrapped into the
logged message) — and the triggering user turn is always appended first,
immediately before the single assistant turn, whatever completion arrives. -/
theorem c6_error_logged_user_turn_first (run : SnippetSem) (s : Session)
    (df : DataFrame) (q response e : List Char) (hdf : s.df = some df)
    (hc : classifiesAsSnippet response = true)
    (herr : run (stripImportLines (extract_code response)) execGlobals (initLocals df)
      = Except.error e) :
    (processQueryS run s q response).chat_history
      = s.chat_history ++ [⟨Sender.user, q⟩,
          ⟨Sender.assistant, "No result to display.".data⟩]
    ∧ ∀ (run' : SnippetSem) (response' : List Char), ∃ t,
        (processQueryS run' s q response').chat_history
          = s.chat_history ++ [⟨Sender.user, q⟩, ⟨Sender.assistant, t⟩] := by
  constructor
  · rw [processQueryS_chat_snippet run s df q response hdf hc]
    simp [execute_code, herr, format_result]
  · intro run' response'
    exact processQueryS_chat_shape run' s df q response' hdf

/-- Witness for the amended C6 at a concrete failing run. -/
theorem c6_amended_witness :
    classifiesAsSnippet ("```python\nresult = 1/0\n```".data) = true
    ∧ (processQueryS (fun _ _ _ => Except.error ("division by zero".data))
          ⟨some ⟨3, 2⟩, [], Option.none, Option.none, Option.none⟩
          ("q".data) ("```python\nresult = 1/0\n```".data)).chat_history
        = (⟨some ⟨3, 2⟩, [], Option.none, Option.none, Option.none⟩ : Session).chat_history
            ++ [⟨Sender.user, "q".data⟩,
                ⟨Sender.assistant, "No result to display.".data⟩] :=
  ⟨by decide,
    (c6_error_logged_user_turn_first (fun _ _ _ => Except.error ("division by zero".data))
      ⟨some ⟨3, 2⟩, [], Option.none, Option.none, Option.none⟩ ⟨3, 2⟩
      ("q".data) ("```python\nresult = 1/0\n```".data) ("division by zero".data)
      rfl (by decide) rfl).1⟩

/-!
## C10 — every submitted query appends a user/assistant pair
-/

/-- Appending a user turn followed by an assistant turn preserves the
alternation shape of the log. -/
theorem altLog_append_pair (q t : List Char) :
    ∀ l : List Turn, altLog (l ++ [⟨Sender.user, q⟩, ⟨Sender.assistant, t⟩]) = altLog l
  | [] => by simp [altLog]
  | [t1] => by
    obtain ⟨s1, x1⟩ := t1
    cases s1 <;> simp [altLog]
  | t1 :: t2 :: rest => by
    obtain ⟨s1, x1⟩ := t1
    obtain ⟨s2, x2⟩ := t2
    cases s1 <;> cases s2 <;>
      simp [altLog, altLog_append_pair q t rest]

/-- C10: in both trigger paths — the chat form (`send` with a non-empty query)
and an example button (a pending `example_query`) — processing appends exactly
two turns to the conversation log: the user turn carrying the query followed
by exactly one assistant turn; consequently a log alternating
user/assistant (starting with a user turn) still alternates afterwards. -/
theorem c10_pair_appended_alternation (run : SnippetSem) (s : Session) (df : DataFrame)
    (q response : List Char) (hdf : s.df = some df)
    (halt : altLog s.chat_history = true) :
    (q ≠ [] → ∃ t,
        (handleSend run s true q response).chat_history
          = s.chat_history ++ [⟨Sender.user, q⟩, ⟨Sender.assistant, t⟩]
        ∧ altLog (handleSend run s true q response).chat_history = true)
    ∧ (s.example_query = some q → ∃ t,
        (handleExample run s response).chat_history
          = s.chat_history ++ [⟨Sender.user, q⟩, ⟨Sender.assistant, t⟩]
        ∧ altLog (handleExample run s response).chat_history = true) := by
  constructor
  · intro hq
    have hsend : handleSend run s true q response = processQueryS run s q response := by
      simp [handleSend, hq]
    obtain ⟨t, ht⟩ := processQueryS_chat_shape run s df q response hdf
    refine ⟨t, by rw [hsend, ht], ?_⟩
    rw [hsend, ht, altLog_append_pair]
    exact halt
  · intro hex
    have hex' : handleExample run s response
        = processQueryS run { s with example_query := Option.none } q response := by
      simp [handleExample, hex]
    obtain ⟨t, ht⟩ := processQueryS_chat_shape run
      { s with example_query := Option.none } df q response hdf
    refine ⟨t, by rw [hex', ht], ?_⟩
    rw [hex', ht, altLog_append_pair]
    exact halt

/-- Witness for C10 on a concrete submitted form query against a log that
already holds one user/assistant pair. -/
theorem c10_witness :
    altLog [⟨Sender.user, "hi".data⟩, ⟨Sender.assistant, "hello".data⟩] = true
    ∧ (handleSend (fun _ _ locals => Except.ok locals)
          ⟨some ⟨1, 1⟩, [⟨Sender.user, "hi".data⟩, ⟨Sender.assistant, "hello".data⟩],
            Option.none, Option.none, Option.none⟩
          true ("avg?".data) ("42".data)).chat_history
        = [⟨Sender.user, "hi".data⟩, ⟨Sender.assistant, "hello".data⟩,
            ⟨Sender.user, "avg?".data⟩, ⟨Sender.assistant, "42".data⟩]
    ∧ altLog (handleSend (fun _ _ locals => Except.ok locals)
          ⟨some ⟨1, 1⟩, [⟨Sender.user, "hi".data⟩, ⟨Sender.assistant, "hello".data⟩],
            Option.none, Option.none, Option.none⟩
          true ("avg?".data) ("42".data)).chat_history = true := by
  refine ⟨by decide, by decide, ?_⟩
  obtain ⟨t, -, halt⟩ :=
    (c10_pair_appended_alternation (fun _ _ locals => Except.ok locals)
      ⟨some ⟨1, 1⟩, [⟨Sender.user, "hi".data⟩, ⟨Sender.assistant, "hello".data⟩],
        Option.none, Option.none, Option.none⟩
      ⟨1, 1⟩ ("avg?".data) ("42".data) rfl (by decide)).1 (by decide)
  exact halt

/-!
## Split lemmas

General facts about `pySplitGo` used to settle C3 and C4.
-/

/-- A split never yields the empty list of parts. -/
theorem pySplitGo_ne_nil (sep : List Char) : ∀ (s : List Char) (k : Nat), pySplitGo sep s k ≠ []
  | [], _ => by simp [pySplitGo]
  | c :: rest, k + 1 => by simpa [pySplitGo] using pySplitGo_ne_nil sep rest k
  | c :: rest, 0 => by
    by_cases hsw : startsWithL sep (c :: rest)
    · simp [pySplitGo, hsw]
    · cases h : pySplitGo sep rest 0 with
      | nil => exact absurd h (pySplitGo_ne_nil sep rest 0)
      | cons p ps => simp [pySplitGo, hsw, h, List.modifyHead]

/-- A text whose first character differs from the separator's first character
does not start with the separator. -/
theorem startsWithL_cons_ne {sh c : Char} (stl t : List Char) (h : c ≠ sh) :
    startsWithL (sh :: stl) (c :: t) = false := by
  simp [startsWithL, dropPre, Ne.symm h]

/-- Characters different from the separator's head are scanned into the
current part: splitting `a ++ s` is splitting `s` with `a` prepended to the
first part, provided no character of `a` can begin a separator occurrence. -/
theorem pySplitGo_append_of_no_head (sh : Char) (stl : List Char) :
    ∀ (a s : List Char), (∀ c ∈ a, c ≠ sh) →
      pySplitGo (sh :: stl) (a ++ s) 0
        = (pySplitGo (sh :: stl) s 0).modifyHead (fun p => a ++ p)
  | [], s, _ => by
    cases h : pySplitGo (sh :: stl) s 0 <;> simp [List.modifyHead, h]
  | c :: a', s, h => by
    have hc : c ≠ sh := h c (List.mem_cons_self c a')
    have hrec := pySplitGo_append_of_no_head sh stl a' s
      (fun x hx => h x (List.mem_cons_of_mem c hx))
    have hsw : startsWithL (sh :: stl) (c :: (a' ++ s)) = false :=
      startsWithL_cons_ne stl (a' ++ s) hc
    simp only [List.cons_append]
    rw [show pySplitGo (sh :: stl) (c :: (a' ++ s)) 0
        = (pySplitGo (sh :: stl) (a' ++ s) 0).modifyHead (fun p => c :: p) from by
          simp [pySplitGo, hsw]]
    rw [hrec]
    cases hb : pySplitGo (sh :: stl) s 0 <;> simp [List.modifyHead, hb]

/-- Splitting a text free of the separator's head character yields that text
as the single part. -/
theorem pySplitGo_all_clean (sh : Char) (stl a : List Char) (h : ∀ c ∈ a, c ≠ sh) :
    pySplitGo (sh :: stl) a 0 = [a] := by
  have h2 := pySplitGo_append_of_no_head sh stl a [] h
  simpa [pySplitGo, List.modifyHead] using h2

/-- Splitting on a single character at an occurrence of that character. -/
theorem pySplitGo_single_boundary (c : Char) (s : List Char) :
    pySplitGo [c] (c :: s) 0 = [] :: pySplitGo [c] s 0 := by
  simp [pySplitGo, startsWithL, dropPre]

/-- Parts produced by a single-character split never contain the separator
character. -/
theorem mem_pySplitGo_single_not_mem (c : Char) :
    ∀ (s : List Char), ∀ l ∈ pySplitGo [c] s 0, c ∉ l
  | [], l, hl => by
    simp [pySplitGo] at hl
    subst hl
    simp
  | d :: rest, l, hl => by
    by_cases hcd : c = d
    · subst hcd
      rw [pySplitGo_single_boundary] at hl
      rcases List.mem_cons.mp hl with rfl | hl'
      · simp
      · exact mem_pySplitGo_single_not_mem c rest l hl'
    · have hsw : startsWithL [c] (d :: rest) = false :=
        startsWithL_cons_ne [] rest (Ne.symm hcd)
      rw [show pySplitGo [c] (d :: rest) 0
          = (pySplitGo [c] rest 0).modifyHead (fun p => d :: p) from by
            simp [pySplitGo, hsw]] at hl
      cases h : pySplitGo [c] rest 0 with
      | nil => exact absurd h (pySplitGo_ne_nil [c] rest 0)
      | cons p ps =>
        rw [h, List.modifyHead] at hl
        rcases List.mem_cons.mp hl with rfl | hl'
        · intro hmem
          rcases List.mem_cons.mp hmem with rfl | hmem'
          · exact hcd rfl
          · exact (mem_pySplitGo_single_not_mem c rest p
              (by rw [h]; exact List.mem_cons_self p ps)) hmem'
        · exact mem_pySplitGo_single_not_mem c rest l
            (by rw [h]; exact List.mem_cons_of_mem p hl')

/-- Splitting a join on its separator recovers the parts, when no part
contains the separator character. -/
theorem pySplit_join_single (c : Char) :
    ∀ (parts : List (List Char)), parts ≠ [] → (∀ p ∈ parts, c ∉ p) →
      pySplit [c] (pyJoin [c] parts) = parts
  | [], h, _ => absurd rfl h
  | [p], _, hp => by
    have hc : ∀ x ∈ p, x ≠ c := fun x hx hxc => hp p (by simp) (hxc ▸ hx)
    simpa [pyJoin, pySplit] using pySplitGo_all_clean c [] p hc
  | p :: p2 :: rest, _, hp => by
    have hc : ∀ x ∈ p, x ≠ c := fun x hx hxc => hp p (by simp) (hxc ▸ hx)
    have hrest : ∀ q ∈ p2 :: rest, c ∉ q := fun q hq => hp q (List.mem_cons_of_mem p hq)
    have ih := pySplit_join_single c (p2 :: rest) (by simp) hrest
    show pySplitGo [c] (p ++ [c] ++ pyJoin [c] (p2 :: rest)) 0 = p :: p2 :: rest
    rw [List.append_assoc,
      pySplitGo_append_of_no_head c [] p ([c] ++ pyJoin [c] (p2 :: rest)) hc,
      show ([c] ++ pyJoin [c] (p2 :: rest)) = c :: pyJoin [c] (p2 :: rest) from rfl,
      pySplitGo_single_boundary,
      show pySplitGo [c] (pyJoin [c] (p2 :: rest)) 0 = p2 :: rest from ih]
    simp [List.modifyHead]

/-- Lines produced by `pySplitlines` contain no newline. -/
theorem newline_not_mem_pySplitlines (s l : List Char)
    (h : l ∈ pySplitlines s) : Char.ofNat 10 ∉ l := by
  by_cases he : s.isEmpty
  · simp [pySplitlines, he] at h
  · simp only [pySplitlines, he, Bool.false_eq_true, if_false] at h
    have hmem : l ∈ pySplit [Char.ofNat 10] s := by
      by_cases hg : (pySplit [Char.ofNat 10] s).getLast? = some ([] : List Char)
      · rw [if_pos hg] at h
        exact List.mem_of_mem_dropLast h
      · rw [if_neg hg] at h
        exact h
    exact mem_pySplitGo_single_not_mem (Char.ofNat 10) s l hmem

/-- Every line of the split of a newline-join of newline-free parts is one of
the parts. -/
theorem mem_parts_of_mem_pySplitlines_join (parts : List (List Char))
    (hp : ∀ p ∈ parts, Char.ofNat 10 ∉ p) :
    ∀ l ∈ pySplitlines (pyJoin [Char.ofNat 10] parts), l ∈ parts := by
  intro l hl
  cases parts with
  | nil => simp [pyJoin, pySplitlines] at hl
  | cons p ps =>
    have hjoin : pySplit [Char.ofNat 10] (pyJoin [Char.ofNat 10] (p :: ps)) = p :: ps :=
      pySplit_join_single (Char.ofNat 10) (p :: ps) (by simp) hp
    by_cases he : (pyJoin [Char.ofNat 10] (p :: ps)).isEmpty
    · simp [pySplitlines, he] at hl
    · simp only [pySplitlines, he, Bool.false_eq_true, if_false] at hl
      rw [hjoin] at hl
      by_cases hg : (p :: ps).getLast? = some ([] : List Char)
      · rw [if_pos hg] at hl
        exact List.mem_of_mem_dropLast hl
      · rw [if_neg hg] at hl
        exact hl

/-!
## C3 — import stripping
-/

/-- C3 counterexample: a completion classified as a snippet whose extracted
code contains the import directive line `from os import path`.  That line
does not get stripped: it is still one of the lines of the code passed to the
executor, so extraction does not strip every line beginning an import
directive in the `from ... import ...` form. -/
theorem c3_counterexample :
    classifiesAsSnippet ("```python\nfrom os import path\nresult = df\n```".data) = true
    ∧ ("from os import path".data) ∈ pySplitlines (stripImportLines
        (extract_code ("```python\nfrom os import path\nresult = df\n```".data))) := by
  decide

/-- C3 amended: extraction strips exactly the lines whose stripped text
begins with the token `import`; `from ... import ...` lines are not removed.
Consequently, every line of the stripped code, after trimming surrounding
whitespace, does not begin with `import`. -/
theorem c3_amended_only_import_prefix_stripped (raw l : List Char)
    (hmem : l ∈ pySplitlines (stripImportLines raw)) :
    startsWithL ("import".data) (trimChars l) = false := by
  have hk : l ∈ (pySplitlines raw).filter
      (fun line => !(startsWithL ("import".data) (trimChars line))) := by
    apply mem_parts_of_mem_pySplitlines_join
    · intro p hp
      exact newline_not_mem_pySplitlines raw p (List.mem_of_mem_filter hp)
    · exact hmem
  have hpred := (List.mem_filter.mp hk).2
  simpa using hpred

/-- Witness for the amended C3: the `import os` line is stripped and the
surviving line does not begin with `import`. -/
theorem c3_amended_witness :
    ("result = 1".data) ∈ pySplitlines (stripImportLines ("import os\nresult = 1".data))
    ∧ startsWithL ("import".data) (trimChars ("result = 1".data)) = false :=
  ⟨by decide,
    c3_amended_only_import_prefix_stripped ("import os\nresult = 1".data)
      ("result = 1".data) (by decide)⟩

/-!
## C4 — extraction takes the last fenced block

The two separators the source splits on both start with a backquote, so in a
completion whose prose and block bodies are backquote-free the only separator
occurrences are the fences themselves.
-/

/-- A prefix is removed from its own append. -/
theorem dropPre_append (a s : List Char) : dropPre a (a ++ s) = some s := by
  induction a with
  | nil => rfl
  | cons c a' ih => simp [dropPre, ih]

/-- Every text starts with itself. -/
theorem startsWithL_self_append (a s : List Char) : startsWithL a (a ++ s) = true := by
  simp [startsWithL, dropPre_append]

/-- While consuming an already-matched separator, the scanner just drops
characters. -/
theorem pySplitGo_len_skip (sep : List Char) :
    ∀ (a s : List Char), pySplitGo sep (a ++ s) a.length = pySplitGo sep s 0
  | [], s => rfl
  | c :: a', s => by
    simpa [pySplitGo] using pySplitGo_len_skip sep a' s

/-- Splitting at an occurrence of the separator itself. -/
theorem pySplitGo_boundary (sh : Char) (stl s : List Char) :
    pySplitGo (sh :: stl) ((sh :: stl) ++ s) 0 = [] :: pySplitGo (sh :: stl) s 0 := by
  have h : startsWithL (sh :: stl) (sh :: (stl ++ s)) = true :=
    startsWithL_self_append (sh :: stl) s
  show pySplitGo (sh :: stl) (sh :: (stl ++ s)) 0 = [] :: pySplitGo (sh :: stl) s 0
  rw [show pySplitGo (sh :: stl) (sh :: (stl ++ s)) 0
      = [] :: pySplitGo (sh :: stl) (stl ++ s) ((sh :: stl).length - 1) from by
        simp [pySplitGo, h]]
  simp only [List.length_cons, Nat.add_sub_cancel]
  rw [pySplitGo_len_skip]

/-- `pySplitGo_append_of_no_head` specialised to the python-fence separator. -/
theorem pySplitGo_py_skip (a s : List Char) (h : ∀ c ∈ a, c ≠ backquote) :
    pySplitGo ("```python".data) (a ++ s) 0
      = (pySplitGo ("```python".data) s 0).modifyHead (fun p => a ++ p) :=
  pySplitGo_append_of_no_head backquote ("``python".data) a s h

/-- `pySplitGo_boundary` specialised to the python-fence separator. -/
theorem pySplitGo_py_boundary (s : List Char) :
    pySplitGo ("```python".data) ("```python".data ++ s) 0
      = [] :: pySplitGo ("```python".data) s 0 :=
  pySplitGo_boundary backquote ("``python".data) s

/-- `pySplitGo_all_clean` specialised to the python-fence separator. -/
theorem pySplitGo_py_clean (a : List Char) (h : ∀ c ∈ a, c ≠ backquote) :
    pySplitGo ("```python".data) a 0 = [a] :=
  pySplitGo_all_clean backquote ("``python".data) a h

/-- `pySplitGo_append_of_no_head` specialised to the plain fence separator. -/
theorem pySplitGo_fence_skip (a s : List Char) (h : ∀ c ∈ a, c ≠ backquote) :
    pySplitGo ("```".data) (a ++ s) 0
      = (pySplitGo ("```".data) s 0).modifyHead (fun p => a ++ p) :=
  pySplitGo_append_of_no_head backquote ("``".data) a s h

/-- `pySplitGo_boundary` specialised to the plain fence separator. -/
theorem pySplitGo_fence_boundary (s : List Char) :
    pySplitGo ("```".data) ("```".data ++ s) 0 = [] :: pySplitGo ("```".data) s 0 :=
  pySplitGo_boundary backquote ("``".data) s

/-- `pySplitGo_all_clean` specialised to the plain fence separator. -/
theorem pySplitGo_fence_clean (a : List Char) (h : ∀ c ∈ a, c ≠ backquote) :
    pySplitGo ("```".data) a 0 = [a] :=
  pySplitGo_all_clean backquote ("``".data) a h

/-- A text opening with a newline does not start with `python`. -/
theorem startsWithL_python_newline (t : List Char) :
    startsWithL ("python".data) (Char.ofNat 10 :: t) = false :=
  startsWithL_cons_ne ("ython".data) t (by decide)

/-- The head of a newline-led text is not a backquote. -/
theorem head_ne_backquote_of_newline (t : List Char) :
    ∀ d, (Char.ofNat 10 :: t).head? = some d → d ≠ backquote := by
  intro d hd
  have hnd : Char.ofNat 10 = d := by simpa using hd
  subst hnd
  decide

/-- A closing fence whose following text neither continues into `python` nor
opens with a backquote is scanned through without matching the python-fence
separator. -/
theorem pySplitGo_fence (s : List Char)
    (h1 : startsWithL ("python".data) s = false)
    (h2 : ∀ d, s.head? = some d → d ≠ backquote) :
    pySplitGo ("```python".data) ("```".data ++ s) 0
      = (pySplitGo ("```python".data) s 0).modifyHead (fun p => "```".data ++ p) := by
  have f0 : startsWithL ("```python".data)
      (backquote :: backquote :: backquote :: s) = false := by
    show (dropPre
        (backquote :: backquote :: backquote :: 'p' :: 'y' :: 't' :: 'h' :: 'o' :: 'n' :: [])
        (backquote :: backquote :: backquote :: s)).isSome = false
    rw [show dropPre
        (backquote :: backquote :: backquote :: 'p' :: 'y' :: 't' :: 'h' :: 'o' :: 'n' :: [])
        (backquote :: backquote :: backquote :: s)
        = dropPre ('p' :: 'y' :: 't' :: 'h' :: 'o' :: 'n' :: []) s from by
          simp [dropPre]]
    exact h1
  have f1 : startsWithL ("```python".data) (backquote :: backquote :: s) = false := by
    show (dropPre
        (backquote :: backquote :: backquote :: 'p' :: 'y' :: 't' :: 'h' :: 'o' :: 'n' :: [])
        (backquote :: backquote :: s)).isSome = false
    cases s with
    | nil => decide
    | cons d s' =>
      have hd : d ≠ backquote := h2 d rfl
      rw [show dropPre
          (backquote :: backquote :: backquote :: 'p' :: 'y' :: 't' :: 'h' :: 'o' :: 'n' :: [])
          (backquote :: backquote :: d :: s')
          = dropPre (backquote :: 'p' :: 'y' :: 't' :: 'h' :: 'o' :: 'n' :: []) (d :: s') from by
            simp [dropPre]]
      simp [dropPre, Ne.symm hd]
  have f2 : startsWithL ("```python".data) (backquote :: s) = false := by
    show (dropPre
        (backquote :: backquote :: backquote :: 'p' :: 'y' :: 't' :: 'h' :: 'o' :: 'n' :: [])
        (backquote :: s)).isSome = false
    cases s with
    | nil => decide
    | cons d s' =>
      have hd : d ≠ backquote := h2 d rfl
      rw [show dropPre
          (backquote :: backquote :: backquote :: 'p' :: 'y' :: 't' :: 'h' :: 'o' :: 'n' :: [])
          (backquote :: d :: s')
          = dropPre (backquote :: backquote :: 'p' :: 'y' :: 't' :: 'h' :: 'o' :: 'n' :: [])
              (d :: s') from by
            simp [dropPre]]
      simp [dropPre, Ne.symm hd]
  show pySplitGo ("```python".data) (backquote :: backquote :: backquote :: s) 0
      = (pySplitGo ("```python".data) s 0).modifyHead
          (fun p => backquote :: backquote :: backquote :: p)
  rw [show pySplitGo ("```python".data) (backquote :: backquote :: backquote :: s) 0
      = (pySplitGo ("```python".data) (backquote :: backquote :: s) 0).modifyHead
          (fun p => backquote :: p) from by
        simp [pySplitGo, f0]]
  rw [show pySplitGo ("```python".data) (backquote :: backquote :: s) 0
      = (pySplitGo ("```python".data) (backquote :: s) 0).modifyHead
          (fun p => backquote :: p) from by
        simp [pySplitGo, f1]]
  rw [show pySplitGo ("```python".data) (backquote :: s) 0
      = (pySplitGo ("```python".data) s 0).modifyHead (fun p => backquote :: p) from by
        simp [pySplitGo, f2]]
  cases hb : pySplitGo ("```python".data) s 0 <;> simp [List.modifyHead, hb]

/-- Splitting a well-formed two-block completion on the python fence yields
the prose before the first block, the first block body with its closing fence
and the prose between, and the last block body with its closing fence and the
trailing prose. -/
theorem pySplit_two_blocks (pre c1 mid c2 post : List Char)
    (hpre : ∀ c ∈ pre, c ≠ backquote) (hc1 : ∀ c ∈ c1, c ≠ backquote)
    (hmid : ∀ c ∈ mid, c ≠ backquote) (hc2 : ∀ c ∈ c2, c ≠ backquote)
    (hpost : ∀ c ∈ post, c ≠ backquote)
    (hmidnl : mid.head? = some (Char.ofNat 10))
    (hpostnl : post = [] ∨ post.head? = some (Char.ofNat 10)) :
    pySplit ("```python".data)
        (pre ++ "```python".data ++ c1 ++ "```".data ++ mid
          ++ "```python".data ++ c2 ++ "```".data ++ post)
      = [pre, c1 ++ "```".data ++ mid, c2 ++ "```".data ++ post] := by
  obtain ⟨mid', rfl⟩ : ∃ mid', mid = Char.ofNat 10 :: mid' := by
    cases mid with
    | nil => simp at hmidnl
    | cons a t =>
      simp at hmidnl
      exact ⟨t, by rw [hmidnl]⟩
  have h1post : startsWithL ("python".data) post = false := by
    rcases hpostnl with rfl | hp
    · rfl
    · obtain ⟨t, rfl⟩ : ∃ t, post = Char.ofNat 10 :: t := by
        cases post with
        | nil => simp at hp
        | cons a t =>
          simp at hp
          exact ⟨t, by rw [hp]⟩
      exact startsWithL_python_newline t
  have h2post : ∀ d, post.head? = some d → d ≠ backquote := by
    rcases hpostnl with rfl | hp
    · intro d hd
      simp at hd
    · obtain ⟨t, rfl⟩ : ∃ t, post = Char.ofNat 10 :: t := by
        cases post with
        | nil => simp at hp
        | cons a t =>
          simp at hp
          exact ⟨t, by rw [hp]⟩
      exact head_ne_backquote_of_newline t
  have hz : pySplitGo ("```python".data) (c2 ++ ("```".data ++ post)) 0
      = [c2 ++ ("```".data ++ post)] := by
    rw [pySplitGo_py_skip c2 _ hc2, pySplitGo_fence post h1post h2post,
      pySplitGo_py_clean post hpost]
    simp [List.modifyHead]
  have hy : pySplitGo ("```python".data)
      ((Char.ofNat 10 :: mid')
        ++ ("```python".data ++ (c2 ++ ("```".data ++ post)))) 0
      = [Char.ofNat 10 :: mid', c2 ++ ("```".data ++ post)] := by
    rw [pySplitGo_py_skip _ _ hmid, pySplitGo_py_boundary, hz]
    simp [List.modifyHead]
  have hx : pySplitGo ("```python".data)
      (c1 ++ ("```".data ++ ((Char.ofNat 10 :: mid')
        ++ ("```python".data ++ (c2 ++ ("```".data ++ post)))))) 0
      = [c1 ++ ("```".data ++ (Char.ofNat 10 :: mid')),
          c2 ++ ("```".data ++ post)] := by
    rw [pySplitGo_py_skip c1 _ hc1,
      pySplitGo_fence ((Char.ofNat 10 :: mid')
        ++ ("```python".data ++ (c2 ++ ("```".data ++ post))))
        (startsWithL_python_newline (mid'
          ++ ("```python".data ++ (c2 ++ ("```".data ++ post)))))
        (head_ne_backquote_of_newline (mid'
          ++ ("```python".data ++ (c2 ++ ("```".data ++ post))))),
      hy]
    simp [List.modifyHead]
  have hfull : pySplitGo ("```python".data)
      (pre ++ ("```python".data ++ (c1 ++ ("```".data ++ ((Char.ofNat 10 :: mid')
        ++ ("```python".data ++ (c2 ++ ("```".data ++ post)))))))) 0
      = [pre, c1 ++ ("```".data ++ (Char.ofNat 10 :: mid')),
          c2 ++ ("```".data ++ post)] := by
    rw [pySplitGo_py_skip pre _ hpre, pySplitGo_py_boundary, hx]
    simp [List.modifyHead]
  show pySplitGo ("```python".data)
      (pre ++ "```python".data ++ c1 ++ "```".data ++ (Char.ofNat 10 :: mid')
        ++ "```python".data ++ c2 ++ "```".data ++ post) 0
      = [pre, c1 ++ "```".data ++ (Char.ofNat 10 :: mid'), c2 ++ "```".data ++ post]
  simp only [List.append_assoc]
  exact hfull

/-- C4: for a completion containing two fenced python code blocks — prose and
block bodies free of backquotes, each closing fence followed by a line break
(or ending the text) — extraction returns the stripped body of the second
(last) block, and never the first block's body when the two differ. -/
theorem c4_extracts_last_fenced_block (pre c1 mid c2 post : List Char)
    (hpre : ∀ c ∈ pre, c ≠ backquote) (hc1 : ∀ c ∈ c1, c ≠ backquote)
    (hmid : ∀ c ∈ mid, c ≠ backquote) (hc2 : ∀ c ∈ c2, c ≠ backquote)
    (hpost : ∀ c ∈ post, c ≠ backquote)
    (hmidnl : mid.head? = some (Char.ofNat 10))
    (hpostnl : post = [] ∨ post.head? = some (Char.ofNat 10)) :
    extract_code (pre ++ "```python".data ++ c1 ++ "```".data ++ mid
        ++ "```python".data ++ c2 ++ "```".data ++ post)
      = trimChars c2
    ∧ (trimChars c1 ≠ trimChars c2 →
        extract_code (pre ++ "```python".data ++ c1 ++ "```".data ++ mid
            ++ "```python".data ++ c2 ++ "```".data ++ post)
          ≠ trimChars c1) := by
  have hsplit := pySplit_two_blocks pre c1 mid c2 post
    hpre hc1 hmid hc2 hpost hmidnl hpostnl
  have h2 : pySplitGo ("```".data) (c2 ++ ("```".data ++ post)) 0 = [c2, post] := by
    rw [pySplitGo_fence_skip c2 _ hc2, pySplitGo_fence_boundary,
      pySplitGo_fence_clean post hpost]
    simp [List.modifyHead]
  have hmain : extract_code (pre ++ "```python".data ++ c1 ++ "```".data ++ mid
      ++ "```python".data ++ c2 ++ "```".data ++ post) = trimChars c2 := by
    unfold extract_code
    rw [hsplit]
    rw [show List.getLastD
        [pre, c1 ++ "```".data ++ mid, c2 ++ "```".data ++ post] ([] : List Char)
        = c2 ++ "```".data ++ post from rfl]
    rw [List.append_assoc c2 ("```".data) post]
    rw [show pySplit ("```".data) (c2 ++ ("```".data ++ post)) = [c2, post] from h2]
    rfl
  refine ⟨hmain, ?_⟩
  intro hne
  rw [hmain]
  exact Ne.symm hne

/-- Witness for C4: a two-block completion where the second block binds
`result`; extraction returns exactly the second block's body. -/
theorem c4_witness :
    (∀ c ∈ ("Try this:\n".data), c ≠ backquote)
    ∧ (∀ c ∈ ("\nx = 1\n".data), c ≠ backquote)
    ∧ (∀ c ∈ ("\nor better:\n".data), c ≠ backquote)
    ∧ (∀ c ∈ ("\nresult = df\n".data), c ≠ backquote)
    ∧ (∀ c ∈ ("\n".data), c ≠ backquote)
    ∧ ("\nor better:\n".data).head? = some (Char.ofNat 10)
    ∧ (("\n".data : List Char) = [] ∨ ("\n".data).head? = some (Char.ofNat 10))
    ∧ extract_code ("Try this:\n".data ++ "```python".data ++ "\nx = 1\n".data
        ++ "```".data ++ "\nor better:\n".data ++ "```python".data
        ++ "\nresult = df\n".data ++ "```".data ++ "\n".data)
      = trimChars ("\nresult = df\n".data) :=
  ⟨by decide, by decide, by decide, by decide, by decide, by decide, Or.inr (by decide),
    (c4_extracts_last_fenced_block ("Try this:\n".data) ("\nx = 1\n".data)
      ("\nor better:\n".data) ("\nresult = df\n".data) ("\n".data)
      (by decide) (by decide) (by decide) (by decide) (by decide) (by decide)
      (Or.inr (by decide))).1⟩
